import Mathlib

/-!
Verification development for the authentication-and-authorization core and the
configuration/startup glue of the MCP Registry service.

Namespaces, patterns and other strings are embedded as lists of characters;
credential tokens are embedded as lists of natural numbers (byte values).
-/

set_option maxHeartbeats 1000000

/-- Capability is a named mutation right: edit or publish. -/
inductive Capability
  | edit
  | publish
deriving DecidableEq, Repr

/-- Provider is the tag of the identity provider kind: github or oidc. -/
inductive Provider
  | github
  | oidc
deriving DecidableEq, Repr

/-- PermissionGrant is a capability bound to a namespace pattern together with
an opaque rule/provenance id. -/
structure PermissionGrant where
  capability : Capability
  pattern : List Char
  ruleId : List Char
deriving DecidableEq, Repr

/-- Modelled from the spec: the namespace glob rule of section 3. Returns the
base of a glob pattern when the pattern ends in a star that occupies a full
trailing segment (the star is the whole pattern, or stands right after a
slash); returns none otherwise. -/
def globBase (pattern : List Char) : Option (List Char) :=
  match pattern.reverse with
  | [] => none
  | c :: revBase =>
      if c = '*' ∧ (revBase = [] ∨ revBase.head? = some '/') then
        some revBase.reverse
      else
        none

/-- Modelled from the spec: a grant pattern matches a requested namespace iff
it is a literal match or a glob match whose star occupies a full trailing
segment and whose base is a leading part of the namespace. -/
def nsMatch (pattern ns : List Char) : Bool :=
  pattern == ns ||
    (match globBase pattern with
     | some base => base.isPrefixOf ns
     | none => false)

/-- GlobSegMatch states, directly in the words of the specification, that the
pattern is a glob whose star occupies a full trailing segment and the
namespace extends the glob base. -/
def GlobSegMatch (pattern ns : List Char) : Prop :=
  ∃ base rest, pattern = base ++ ['*'] ∧ ns = base ++ rest ∧
    (base = [] ∨ ∃ b, base = b ++ ['/'])

/-- AuthResult is the outcome of an authorization query. -/
inductive AuthResult
  | allow
  | denied
deriving DecidableEq, Repr

/-- Modelled from the spec: Authorize(grants, namespace, capability) allows iff
at least one grant carries the requested capability and its pattern matches
the requested namespace. -/
def Authorize (grants : List PermissionGrant) (ns : List Char)
    (cap : Capability) : AuthResult :=
  if grants.any (fun g => g.capability == cap && nsMatch g.pattern ns) then
    AuthResult.allow
  else
    AuthResult.denied

lemma globBase_eq_some_iff (pattern base : List Char) :
    globBase pattern = some base ↔
      pattern = base ++ ['*'] ∧ (base = [] ∨ ∃ b, base = b ++ ['/']) := by
  unfold globBase
  cases hr : pattern.reverse with
  | nil =>
    have hp : pattern = [] := by
      have := congrArg List.reverse hr
      simpa using this
    subst hp
    simp
  | cons c revBase =>
    have hp : pattern = revBase.reverse ++ [c] := by
      have := congrArg List.reverse hr
      simpa using this
    constructor
    · intro h0
      have h : (if c = '*' ∧ (revBase = [] ∨ revBase.head? = some '/') then
          some revBase.reverse else (none : Option (List Char))) = some base := h0
      by_cases hc : c = '*' ∧ (revBase = [] ∨ revBase.head? = some '/')
      · rw [if_pos hc] at h
        obtain ⟨hstar, hside⟩ := hc
        have hbase : base = revBase.reverse := by
          simpa using h.symm
        subst hbase hstar
        refine ⟨hp, ?_⟩
        rcases hside with h0 | h1
        · left; simp [h0]
        · right
          cases revBase with
          | nil => simp at h1
          | cons d t =>
            simp only [List.head?] at h1
            injection h1 with h1
            exact ⟨t.reverse, by simp [h1]⟩
      · rw [if_neg hc] at h
        exact absurd h (by simp)

    · rintro ⟨hpat, hside⟩
      have hrev : c :: revBase = '*' :: base.reverse := by
        rw [hp] at hpat
        have := congrArg List.reverse hpat
        simpa using this
      injection hrev with hc ht
      have hcond : c = '*' ∧ (revBase = [] ∨ revBase.head? = some '/') := by
        refine ⟨hc, ?_⟩
        rcases hside with h0 | ⟨b, hb⟩
        · left; simp [ht, h0]
        · right; simp [ht, hb]
      show (if c = '*' ∧ (revBase = [] ∨ revBase.head? = some '/') then
          some revBase.reverse else (none : Option (List Char))) = some base
      rw [if_pos hcond]
      simp [ht]

lemma nsMatch_iff (pattern ns : List Char) :
    nsMatch pattern ns = true ↔ pattern = ns ∨ GlobSegMatch pattern ns := by
  unfold nsMatch
  rw [Bool.or_eq_true, beq_iff_eq]
  cases hg : globBase pattern with
  | none =>
    simp only [false_iff, or_iff_left_iff_imp]
    constructor
    · rintro (h | h)
      · exact Or.inl h
      · simp at h
    · rintro (h | h)
      · exact Or.inl h
      · exfalso
        obtain ⟨base, rest, hpat, hns, hside⟩ := h
        have : globBase pattern = some base := by
          rw [globBase_eq_some_iff]
          exact ⟨hpat, hside⟩
        rw [hg] at this
        exact absurd this (by simp)
  | some base =>
    have hbase := (globBase_eq_some_iff pattern base).mp hg
    constructor
    · rintro (h | h)
      · exact Or.inl h
      · right
        rw [List.isPrefixOf_iff_prefix] at h
        obtain ⟨rest, hrest⟩ := h
        exact ⟨base, rest, hbase.1, hrest.symm, hbase.2⟩
    · rintro (h | h)
      · exact Or.inl h
      · right
        obtain ⟨base2, rest, hpat, hns, hside⟩ := h
        have hb2 : globBase pattern = some base2 := by
          rw [globBase_eq_some_iff]
          exact ⟨hpat, hside⟩
        rw [hg] at hb2
        injection hb2 with hb2
        subst hb2
        rw [List.isPrefixOf_iff_prefix]
        exact ⟨rest, hns.symm⟩

/-- C1: Authorize(grants, N, C) allows iff some grant has capability C and a
pattern that matches N literally or by a glob whose star occupies a full
trailing segment; in particular acme/star matches acme/tool and
acme/sub/tool but neither acme2/tool nor bare acme, and the partial-segment
pattern acmestar never matches acme-corp; the alice scenario allows publish
on github/alice/cool-tool and denies publish on github/bob/other-tool. -/
theorem authorize_allow_iff_grant_capability_and_pattern_matches :
    (∀ (grants : List PermissionGrant) (ns : List Char) (cap : Capability),
      Authorize grants ns cap = AuthResult.allow ↔
        ∃ g ∈ grants, g.capability = cap ∧
          (g.pattern = ns ∨ GlobSegMatch g.pattern ns)) ∧
    nsMatch "acme/*".toList "acme/tool".toList = true ∧
    nsMatch "acme/*".toList "acme/sub/tool".toList = true ∧
    nsMatch "acme/*".toList "acme2/tool".toList = false ∧
    nsMatch "acme/*".toList "acme".toList = false ∧
    nsMatch "acme*".toList "acme-corp".toList = false ∧
    Authorize [⟨Capability.publish, "github/alice/*".toList, "gh".toList⟩]
      "github/alice/cool-tool".toList Capability.publish = AuthResult.allow ∧
    Authorize [⟨Capability.publish, "github/alice/*".toList, "gh".toList⟩]
      "github/bob/other-tool".toList Capability.publish = AuthResult.denied := by
  refine ⟨?_, by decide, by decide, by decide, by decide, by decide,
    by decide, by decide⟩
  intro grants ns cap
  unfold Authorize
  constructor
  · intro h
    by_cases hany :
        grants.any (fun g => g.capability == cap && nsMatch g.pattern ns) = true
    · rw [List.any_eq_true] at hany
      obtain ⟨g, hg, hcond⟩ := hany
      rw [Bool.and_eq_true, beq_iff_eq] at hcond
      exact ⟨g, hg, hcond.1, (nsMatch_iff g.pattern ns).mp hcond.2⟩
    · rw [if_neg hany] at h
      exact absurd h (by simp)
  · rintro ⟨g, hg, hcap, hmatch⟩
    have hany :
        grants.any (fun g => g.capability == cap && nsMatch g.pattern ns) = true := by
      rw [List.any_eq_true]
      refine ⟨g, hg, ?_⟩
      rw [Bool.and_eq_true, beq_iff_eq]
      exact ⟨hcap, (nsMatch_iff g.pattern ns).mpr hmatch⟩
    rw [if_pos hany]

/-- Credential is the signed, time-boxed artifact embedding a subject together
with its grants: subject, provider tag, ordered grants, issued-at,
expires-at. -/
structure Credential where
  subject : List Char
  provider : Provider
  grants : List PermissionGrant
  issuedAt : Nat
  expiresAt : Nat
deriving DecidableEq, Repr

/-- Modelled from the spec: numeric tag of a provider in the wire encoding. -/
def Provider.tag : Provider → Nat
  | Provider.github => 0
  | Provider.oidc => 1

/-- Modelled from the spec: provider decoded back from its numeric tag. -/
def Provider.ofTag : Nat → Option Provider
  | 0 => some Provider.github
  | 1 => some Provider.oidc
  | _ => none

/-- Modelled from the spec: numeric tag of a capability in the wire
encoding. -/
def Capability.tag : Capability → Nat
  | Capability.edit => 0
  | Capability.publish => 1

/-- Modelled from the spec: capability decoded back from its numeric tag. -/
def Capability.ofTag : Nat → Option Capability
  | 0 => some Capability.edit
  | 1 => some Capability.publish
  | _ => none

/-- Modelled from the spec: length-prefixed encoding of a character string
into wire bytes. -/
def encStr (s : List Char) : List Nat :=
  s.length :: s.map Char.toNat

/-- Modelled from the spec: wire encoding of one grant. -/
def encGrant (g : PermissionGrant) : List Nat :=
  g.capability.tag :: (encStr g.pattern ++ encStr g.ruleId)

/-- Modelled from the spec: length-prefixed wire encoding of a grant list. -/
def encGrants (gs : List PermissionGrant) : List Nat :=
  gs.length :: (gs.map encGrant).flatten

/-- Modelled from the spec: canonical serialization of all credential fields,
the payload the signature covers. -/
def encCred (c : Credential) : List Nat :=
  encStr c.subject ++ c.provider.tag :: (encGrants c.grants ++
    [c.issuedAt, c.expiresAt])

/-- Modelled from the spec: the asymmetric signature primitive, embedded as a
deterministic keyed digest over the canonical payload; validation recomputes
the digest under the same key. -/
def sign (key : Nat) (payload : List Nat) : Nat :=
  payload.foldl (fun h b => h * 65599 + b + 1) (key + 1)

/-- Modelled from the spec: reads a fixed number of characters from the wire
bytes, returning the characters and the remaining bytes. -/
def readChars : Nat → List Nat → Option (List Char × List Nat)
  | 0, bs => some ([], bs)
  | _ + 1, [] => none
  | n + 1, b :: bs =>
      (readChars n bs).map (fun p => (Char.ofNat b :: p.1, p.2))

/-- Modelled from the spec: parses one length-prefixed string from the wire
bytes. -/
def parseStr : List Nat → Option (List Char × List Nat)
  | [] => none
  | n :: bs => readChars n bs

/-- Modelled from the spec: parses one grant from the wire bytes. -/
def parseGrant : List Nat → Option (PermissionGrant × List Nat)
  | [] => none
  | t :: bs =>
    match Capability.ofTag t with
    | none => none
    | some cap =>
      match parseStr bs with
      | none => none
      | some (pat, bs1) =>
        match parseStr bs1 with
        | none => none
        | some (rid, bs2) => some (⟨cap, pat, rid⟩, bs2)

/-- Modelled from the spec: parses a fixed number of grants from the wire
bytes. -/
def readGrants : Nat → List Nat → Option (List PermissionGrant × List Nat)
  | 0, bs => some ([], bs)
  | n + 1, bs =>
    match parseGrant bs with
    | none => none
    | some (g, bs1) =>
      match readGrants n bs1 with
      | none => none
      | some (gs, bs2) => some (g :: gs, bs2)

/-- Modelled from the spec: parses a length-prefixed grant list from the wire
bytes. -/
def parseGrants : List Nat → Option (List PermissionGrant × List Nat)
  | [] => none
  | n :: bs => readGrants n bs

/-- Modelled from the spec: parses a whole credential from the wire bytes,
returning the credential and the remaining bytes. -/
def parseCred (bs : List Nat) : Option (Credential × List Nat) :=
  match parseStr bs with
  | none => none
  | some (subj, bs1) =>
    match bs1 with
    | [] => none
    | t :: bs2 =>
      match Provider.ofTag t with
      | none => none
      | some p =>
        match parseGrants bs2 with
        | none => none
        | some (gs, bs3) =>
          match bs3 with
          | ia :: ea :: bs4 => some (⟨subj, p, gs, ia, ea⟩, bs4)
          | _ => none

/-- Modelled from the spec: the credential built by the issuer, with issued-at
set to the current time and expires-at to issued-at plus the configured
TTL. -/
def issuedCredential (now ttl : Nat) (subject : List Char) (provider : Provider)
    (grants : List PermissionGrant) : Credential :=
  ⟨subject, provider, grants, now, now + ttl⟩

/-- Modelled from the spec: Issue(subject, providerTag, grants) serializes the
credential and appends the signature over the canonical payload, yielding the
opaque token bytes. -/
def Issue (key now ttl : Nat) (subject : List Char) (provider : Provider)
    (grants : List PermissionGrant) : List Nat :=
  let c := issuedCredential now ttl subject provider grants
  encCred c ++ [sign key (encCred c)]

/-- ValidateError is the per-request failure taxonomy of the validator. -/
inductive ValidateError
  | malformedCredential
  | signatureInvalid
  | credentialExpired
deriving DecidableEq, Repr

/-- Modelled from the spec: Validate(token) parses the token, rejects it when
it cannot be parsed, when the signature does not match the canonical payload,
or when the current time strictly exceeds expires-at, and otherwise returns
the subject and the grants. -/
def Validate (key now : Nat) (token : List Nat) :
    Except ValidateError (List Char × List PermissionGrant) :=
  match parseCred token with
  | some (c, [sig]) =>
      if sig = sign key (encCred c) then
        if c.expiresAt < now then
          Except.error ValidateError.credentialExpired
        else
          Except.ok (c.subject, c.grants)
      else
        Except.error ValidateError.signatureInvalid
  | _ => Except.error ValidateError.malformedCredential

lemma readChars_encode (s : List Char) (rest : List Nat) :
    readChars s.length (s.map Char.toNat ++ rest) = some (s, rest) := by
  induction s with
  | nil => rfl
  | cons c cs ih =>
    simp [readChars, ih, Char.ofNat_toNat]

lemma parseStr_encode (s : List Char) (rest : List Nat) :
    parseStr (encStr s ++ rest) = some (s, rest) := by
  simp only [encStr, List.cons_append, parseStr, List.append_assoc]
  exact readChars_encode s rest

lemma capability_ofTag_tag (c : Capability) : Capability.ofTag c.tag = some c := by
  cases c <;> rfl

lemma provider_ofTag_tag (p : Provider) : Provider.ofTag p.tag = some p := by
  cases p <;> rfl

lemma parseGrant_encode (g : PermissionGrant) (rest : List Nat) :
    parseGrant (encGrant g ++ rest) = some (g, rest) := by
  simp only [encGrant, List.cons_append, parseGrant, List.append_assoc,
    capability_ofTag_tag, parseStr_encode]

lemma readGrants_encode (gs : List PermissionGrant) (rest : List Nat) :
    readGrants gs.length ((gs.map encGrant).flatten ++ rest) = some (gs, rest) := by
  induction gs with
  | nil => rfl
  | cons g gs ih =>
    simp only [List.length_cons, List.map_cons, List.flatten_cons,
      List.append_assoc, readGrants, parseGrant_encode, ih]

lemma parseGrants_encode (gs : List PermissionGrant) (rest : List Nat) :
    parseGrants (encGrants gs ++ rest) = some (gs, rest) := by
  simp only [encGrants, List.cons_append, parseGrants]
  exact readGrants_encode gs rest

lemma parseCred_encode (c : Credential) (rest : List Nat) :
    parseCred (encCred c ++ rest) = some (c, rest) := by
  simp only [encCred, List.append_assoc, List.cons_append, parseCred,
    parseStr_encode, provider_ofTag_tag, parseGrants_encode]
  rfl

lemma validate_issue_eq (key now ttl t : Nat) (s : List Char) (p : Provider)
    (g : List PermissionGrant) :
    Validate key t (Issue key now ttl s p g) =
      if now + ttl < t then Except.error ValidateError.credentialExpired
      else Except.ok (s, g) := by
  unfold Issue Validate
  rw [parseCred_encode]
  simp [issuedCredential]

/-- C2: a credential issued for subject S, provider P and grants G validates,
at any time strictly before its expiry, to exactly the pair of S and G; the
token bytes produced by Issue are parsed back by Validate unchanged. -/
theorem validate_issue_roundtrip (key now ttl t : Nat) (s : List Char)
    (p : Provider) (g : List PermissionGrant) (h : t < now + ttl) :
    Validate key t (Issue key now ttl s p g) = Except.ok (s, g) := by
  rw [validate_issue_eq]
  rw [if_neg (by omega)]

/-- Witness for C2 at a concrete subject, grant set and clock. -/
theorem validate_issue_roundtrip_witness :
    Validate 7 5 (Issue 7 0 10 "alice".toList Provider.github
      [⟨Capability.publish, "github/alice/*".toList, "gh".toList⟩]) =
      Except.ok ("alice".toList,
        [⟨Capability.publish, "github/alice/*".toList, "gh".toList⟩]) :=
  validate_issue_roundtrip 7 0 10 5 "alice".toList Provider.github
    [⟨Capability.publish, "github/alice/*".toList, "gh".toList⟩] (by decide)

/-- C3: validation of an issued credential fails with CredentialExpired
exactly when the validation time strictly exceeds issued-at plus TTL, and
otherwise (at or before the expiry instant) succeeds with the subject and
grants, with no tolerance window. -/
theorem validate_issue_expiry_boundary (key now ttl t : Nat) (s : List Char)
    (p : Provider) (g : List PermissionGrant) :
    Validate key t (Issue key now ttl s p g) =
      if now + ttl < t then Except.error ValidateError.credentialExpired
      else Except.ok (s, g) :=
  validate_issue_eq key now ttl t s p g

/-- Modelled from the spec: the fixed maximum TTL bound, one hour, bounding
the lifetime of any credential by policy. -/
def maxTTL : Nat := 3600

/-- C5: every credential built by the issuer has expires-at equal to issued-at
plus the configured TTL, and whenever the configured TTL respects the fixed
policy maximum, expires-at minus issued-at is bounded by that maximum. -/
theorem issued_credential_ttl_invariant (now ttl : Nat) (s : List Char)
    (p : Provider) (g : List PermissionGrant) (h : ttl ≤ maxTTL) :
    (issuedCredential now ttl s p g).expiresAt =
      (issuedCredential now ttl s p g).issuedAt + ttl ∧
    (issuedCredential now ttl s p g).expiresAt -
      (issuedCredential now ttl s p g).issuedAt ≤ maxTTL := by
  unfold issuedCredential
  refine ⟨rfl, ?_⟩
  simp only
  omega

/-- Witness for C5 at a concrete clock and a five-minute TTL. -/
theorem issued_credential_ttl_invariant_witness :
    (issuedCredential 1000 300 "alice".toList Provider.github []).expiresAt =
      (issuedCredential 1000 300 "alice".toList Provider.github []).issuedAt
        + 300 ∧
    (issuedCredential 1000 300 "alice".toList Provider.github []).expiresAt -
      (issuedCredential 1000 300 "alice".toList Provider.github []).issuedAt
        ≤ maxTTL :=
  issued_credential_ttl_invariant 1000 300 "alice".toList Provider.github []
    (by decide)

/-- ClaimValue is the tagged union of claim value shapes: string, number,
boolean, or ordered list of strings. -/
inductive ClaimValue
  | str (s : List Char)
  | num (n : Int)
  | boolean (b : Bool)
  | strs (l : List (List Char))
deriving DecidableEq, Repr

/-- ClaimSet is the normalized output of identity verification: subject,
provider tag, issued-at, and a mapping from claim name to tagged value. -/
structure ClaimSet where
  subject : List Char
  provider : Provider
  issuedAt : Nat
  claims : List (List Char × ClaimValue)
deriving DecidableEq, Repr

/-- Modelled from the spec: looks a claim up by name in a claim set. -/
def lookupClaim (cs : ClaimSet) (name : List Char) : Option ClaimValue :=
  (cs.claims.find? (fun p => p.1 == name)).map (fun p => p.2)

/-- ClaimCheck is one conjunct of a permission rule: an exact-equality check
or a set-containment check for list-valued claims. -/
inductive ClaimCheck
  | eqCheck (name : List Char) (v : ClaimValue)
  | containsCheck (name : List Char) (s : List Char)
deriving DecidableEq, Repr

/-- Modelled from the spec: decides one claim check against a claim set. -/
def checkHolds (cs : ClaimSet) : ClaimCheck → Bool
  | ClaimCheck.eqCheck name v =>
      lookupClaim cs name == some v
  | ClaimCheck.containsCheck name s =>
      match lookupClaim cs name with
      | some (ClaimValue.strs l) => l.contains s
      | _ => false

/-- PermissionRule is a conjunction of required claim checks, a target
capability, a namespace pattern, and a provenance id. -/
structure PermissionRule where
  checks : List ClaimCheck
  capability : Capability
  pattern : List Char
  ruleId : List Char
deriving DecidableEq, Repr

/-- Modelled from the spec: a rule matches a claim set when all of its
conjunctive claim checks hold. -/
def ruleMatches (cs : ClaimSet) (r : PermissionRule) : Bool :=
  r.checks.all (checkHolds cs)

/-- Modelled from the spec: Evaluate(claimSet) tests every configured rule
against the claim set and produces the grants of the satisfied rules; it is a
total function into a possibly empty grant list, never an error. -/
def Evaluate (rules : List PermissionRule) (cs : ClaimSet) :
    List PermissionGrant :=
  (rules.filter (ruleMatches cs)).map
    (fun r => ⟨r.capability, r.pattern, r.ruleId⟩)

/-- C4: the evaluator is total, returning an empty grant list exactly when no
configured rule matches the claim set, and a credential issued over an empty
or non-empty evaluator output still validates successfully, so an identity
with no grants is still issued a credential. -/
theorem evaluate_total_empty_grants_still_issued (rules : List PermissionRule)
    (cs : ClaimSet) (key now ttl : Nat) :
    (Evaluate rules cs = [] ↔
      ∀ r ∈ rules, ruleMatches cs r = false) ∧
    Validate key now (Issue key now ttl cs.subject cs.provider
      (Evaluate rules cs)) =
      Except.ok (cs.subject, Evaluate rules cs) := by
  constructor
  · unfold Evaluate
    rw [List.map_eq_nil_iff, List.filter_eq_nil_iff]
    constructor
    · intro h r hr
      by_cases hm : ruleMatches cs r = true
      · exact absurd hm (h r hr)
      · simpa using hm
    · intro h r hr
      rw [h r hr]
      simp
  · rw [validate_issue_eq]
    rw [if_neg (by omega)]

/-- VVal is a configuration value: a string or a boolean. -/
inductive VVal
  | vstr (s : String)
  | vbool (b : Bool)
deriving DecidableEq, Repr

/-- KVs is an association list from configuration keys to values. -/
abbrev KVs := List (String × VVal)

/-- Looks a key up in an association list of configuration values. -/
def kvLookup (kvs : KVs) (k : String) : Option VVal :=
  (kvs.find? (fun p => p.1 == k)).map (fun p => p.2)

/-- Translates a configuration key to its environment variable name: the
MCP_REGISTRY prefixing, uppercasing, and replacement of dots by underscores
set up by SetEnvPrefix, SetEnvKeyReplacer and AutomaticEnv in InitViper. -/
def envKeyName (k : String) : String :=
  String.mk (("MCP_REGISTRY_".toList ++ k.toList).map
    (fun c => if c = '.' then '_' else c.toUpper))

/-- Viper is the embedded state of a viper instance: SetDefault defaults,
values read from the configuration file, the ambient environment, the
defaults of bound flags, and the flags explicitly changed on the command
line. -/
structure Viper where
  defaults : KVs
  fileVals : KVs
  envVars : String → Option String
  flagDefaults : KVs
  changedFlags : KVs

/-- Resolves one key following the viper precedence: changed flag, then
environment variable, then configuration file, then SetDefault default, and
last the default value of a bound flag. -/
def viperGet (v : Viper) (k : String) : Option VVal :=
  match kvLookup v.changedFlags k with
  | some x => some x
  | none =>
    match v.envVars (envKeyName k) with
    | some s => some (VVal.vstr s)
    | none =>
      match kvLookup v.fileVals k with
      | some x => some x
      | none =>
        match kvLookup v.defaults k with
        | some x => some x
        | none => kvLookup v.flagDefaults k

/-- Interprets a configuration value as a boolean the way cast.ToBool does,
with unparseable strings and absent values collapsing to false. -/
def castToBool (x : Option VVal) : Bool :=
  match x with
  | some (VVal.vbool b) => b
  | some (VVal.vstr s) =>
      s == "1" || s == "t" || s == "T" || s == "true" || s == "TRUE" ||
        s == "True"
  | none => false

/-- Interprets a configuration value as a string the way cast.ToString does,
with absent values collapsing to the empty string. -/
def castToString (x : Option VVal) : String :=
  match x with
  | some (VVal.vstr s) => s
  | some (VVal.vbool b) => if b then "true" else "false"
  | none => ""

/-- GetBool on the embedded viper state. -/
def getBool (v : Viper) (k : String) : Bool :=
  castToBool (viperGet v k)

/-- GetString on the embedded viper state. -/
def getString (v : Viper) (k : String) : String :=
  castToString (viperGet v k)

/-- Defaults registered by InitViper through SetDefault, transcribed from the
source. -/
def registryDefaults : KVs :=
  [("server.address", VVal.vstr ":8080"),
   ("database.url",
     VVal.vstr "postgres://localhost:5432/mcp-registry?sslmode=disable"),
   ("seed.from", VVal.vstr ""),
   ("server.version", VVal.vstr "dev"),
   ("github.client_id", VVal.vstr ""),
   ("github.client_secret", VVal.vstr ""),
   ("jwt.private_key", VVal.vstr ""),
   ("features.enable_anonymous_auth", VVal.vbool false),
   ("features.enable_registry_validation", VVal.vbool true),
   ("oidc.enabled", VVal.vbool false),
   ("oidc.issuer", VVal.vstr ""),
   ("oidc.client_id", VVal.vstr ""),
   ("oidc.extra_claims", VVal.vstr ""),
   ("oidc.edit_permissions", VVal.vstr ""),
   ("oidc.publish_permissions", VVal.vstr "")]

/-- Defaults of the serve command flags bound to viper keys through
BindPFlag, transcribed from the flag registrations in the serve command. -/
def serveFlagDefaults : KVs :=
  [("server.address", VVal.vstr ""),
   ("database.url", VVal.vstr ""),
   ("seed.from", VVal.vstr ""),
   ("github.client_id", VVal.vstr ""),
   ("github.client_secret", VVal.vstr ""),
   ("jwt.private_key", VVal.vstr ""),
   ("features.enable_anonymous_auth", VVal.vbool false),
   ("features.enable_registry_validation", VVal.vbool true),
   ("oidc.enabled", VVal.vbool false),
   ("oidc.issuer", VVal.vstr ""),
   ("oidc.client_id", VVal.vstr ""),
   ("oidc.extra_claims", VVal.vstr ""),
   ("oidc.edit_permissions", VVal.vstr ""),
   ("oidc.publish_permissions", VVal.vstr "")]

/-- ConfigFileState is the outcome of looking for and reading the optional
configuration file: not found, found and loaded, or found but failing to
read or parse. -/
inductive ConfigFileState
  | notFound
  | loaded (vals : KVs)
  | readFailed
deriving Repr

/-- ViperError is the error InitViper can return. -/
inductive ViperError
  | configReadError
deriving DecidableEq, Repr

/-- Values contributed by the configuration file in each file state. -/
def fileValsOf : ConfigFileState → KVs
  | ConfigFileState.notFound => []
  | ConfigFileState.loaded vals => vals
  | ConfigFileState.readFailed => []

/-- InitViper registers the defaults, wires the environment, and tries to
read the configuration file: a missing file is acceptable and falls back to
environment variables and defaults, while a file that is found but cannot be
read or parsed is an error. -/
def InitViper (fs : ConfigFileState) (env : String → Option String)
    (flagDefaults changedFlags : KVs) : Except ViperError Viper :=
  match fs with
  | ConfigFileState.readFailed => Except.error ViperError.configReadError
  | ConfigFileState.notFound => Except.ok ⟨registryDefaults, [], env,
      flagDefaults, changedFlags⟩
  | ConfigFileState.loaded vals => Except.ok ⟨registryDefaults, vals, env,
      flagDefaults, changedFlags⟩

/-- Config holds the application configuration, field for field as in the
source. -/
structure Config where
  ServerAddress : String
  DatabaseURL : String
  SeedFrom : String
  Version : String
  GithubClientID : String
  GithubClientSecret : String
  JWTPrivateKey : String
  EnableAnonymousAuth : Bool
  EnableRegistryValidation : Bool
  OIDCEnabled : Bool
  OIDCIssuer : String
  OIDCClientID : String
  OIDCExtraClaims : String
  OIDCEditPerms : String
  OIDCPublishPerms : String

/-- NewConfigFromViper creates a Config from a viper instance, key for key as
in the source. -/
def NewConfigFromViper (v : Viper) : Config :=
  { ServerAddress := getString v "server.address",
    DatabaseURL := getString v "database.url",
    SeedFrom := getString v "seed.from",
    Version := getString v "server.version",
    GithubClientID := getString v "github.client_id",
    GithubClientSecret := getString v "github.client_secret",
    JWTPrivateKey := getString v "jwt.private_key",
    EnableAnonymousAuth := getBool v "features.enable_anonymous_auth",
    EnableRegistryValidation :=
      getBool v "features.enable_registry_validation",
    OIDCEnabled := getBool v "oidc.enabled",
    OIDCIssuer := getString v "oidc.issuer",
    OIDCClientID := getString v "oidc.client_id",
    OIDCExtraClaims := getString v "oidc.extra_claims",
    OIDCEditPerms := getString v "oidc.edit_permissions",
    OIDCPublishPerms := getString v "oidc.publish_permissions" }

/-- C8: the anonymous-credentials feature flag travels from the
features.enable_anonymous_auth key into Config.EnableAnonymousAuth, and when
neither a changed flag, nor the environment variable, nor the configuration
file sets the key, its value is false. -/
theorem enable_anonymous_auth_defaults_to_false (fs : ConfigFileState)
    (env : String → Option String) (changed : KVs) (v : Viper)
    (hv : InitViper fs env serveFlagDefaults changed = Except.ok v)
    (hflag : kvLookup changed "features.enable_anonymous_auth" = none)
    (henv : env "MCP_REGISTRY_FEATURES_ENABLE_ANONYMOUS_AUTH" = none)
    (hfile : kvLookup (fileValsOf fs) "features.enable_anonymous_auth" = none) :
    (NewConfigFromViper v).EnableAnonymousAuth = false := by
  have hkey : envKeyName "features.enable_anonymous_auth" =
      "MCP_REGISTRY_FEATURES_ENABLE_ANONYMOUS_AUTH" := by decide
  have hdefault : kvLookup registryDefaults "features.enable_anonymous_auth" =
      some (VVal.vbool false) := by decide
  have hnil : kvLookup ([] : KVs) "features.enable_anonymous_auth" = none := rfl
  cases fs with
  | readFailed => exact absurd hv (by simp [InitViper])
  | notFound =>
    simp only [InitViper, Except.ok.injEq] at hv
    subst hv
    show getBool _ "features.enable_anonymous_auth" = false
    unfold getBool viperGet
    simp only [hflag, hkey, henv, hnil, hdefault]
    rfl
  | loaded vals =>
    simp only [InitViper, Except.ok.injEq] at hv
    subst hv
    simp only [fileValsOf] at hfile
    show getBool _ "features.enable_anonymous_auth" = false
    unfold getBool viperGet
    simp only [hflag, hkey, henv, hfile, hdefault]
    rfl

/-- Witness for C8: with no changed flag, an empty environment, and no
configuration file, the loaded configuration disables anonymous
credentials. -/
theorem enable_anonymous_auth_defaults_to_false_witness :
    (NewConfigFromViper ⟨registryDefaults, fileValsOf ConfigFileState.notFound,
      fun _ => none, serveFlagDefaults, []⟩).EnableAnonymousAuth = false :=
  enable_anonymous_auth_defaults_to_false ConfigFileState.notFound
    (fun _ => none) [] _ rfl rfl rfl rfl

/-- C9: InitViper succeeds, falling back to environment variables and
defaults, whenever the configuration file is missing, and returns an error
exactly when a configuration file is found but cannot be read or parsed. -/
theorem initviper_fails_only_on_unreadable_config_file
    (fs : ConfigFileState) (env : String → Option String)
    (flagDefaults changedFlags : KVs) :
    ((∃ e, InitViper fs env flagDefaults changedFlags = Except.error e) ↔
      (match fs with
       | ConfigFileState.readFailed => True
       | _ => False)) ∧
    (∃ vv, InitViper ConfigFileState.notFound env flagDefaults changedFlags =
      Except.ok vv) := by
  constructor
  · cases fs with
    | notFound => simp [InitViper]
    | loaded vals => simp [InitViper]
    | readFailed =>
      simp only [InitViper]
      constructor
      · intro _
        trivial
      · intro _
        exact ⟨ViperError.configReadError, trivial⟩
  · exact ⟨_, rfl⟩

/-- RuleConfigFault is a kind of malformed Permission Rule configuration:
invalid JSON, an unknown capability name, or an unparseable pattern. -/
inductive RuleConfigFault
  | invalidJson
  | unknownCapability
  | unparseablePattern
deriving DecidableEq, Repr

/-- RuleConfigSource is the declarative Permission Rule configuration carried
in the oidc permission strings: either well formed, denoting a rule list, or
malformed with one of the fault kinds. -/
inductive RuleConfigSource
  | wellFormed (rules : List PermissionRule)
  | malformed (f : RuleConfigFault)
deriving Repr

/-- Modelled from the spec: parsing of the Permission Rule configuration,
which is done by the server constructor absent from the sources; it fails
exactly on the malformed configurations. -/
def parseRuleConfig :
    RuleConfigSource → Except RuleConfigFault (List PermissionRule)
  | RuleConfigSource.wellFormed rules => Except.ok rules
  | RuleConfigSource.malformed f => Except.error f

/-- StartupError is a reason the serve command aborts before serving. -/
inductive StartupError
  | configInit (e : ViperError)
  | dbConnect
  | telemetryInit
  | ruleConfig (f : RuleConfigFault)
deriving DecidableEq, Repr

/-- LogEvent is a log line the serve command can emit during startup. -/
inductive LogEvent
  | configInitFailed
  | dbConnectFailed
  | seedImportFailed
  | telemetryInitFailed
deriving DecidableEq, Repr

/-- ServeEnv collects the outcomes of the effectful steps the serve command
performs: the configuration file state, the ambient environment, the changed
command-line flags, and whether the database connection, the seed import and
the telemetry initialization succeed, plus the Permission Rule
configuration. -/
structure ServeEnv where
  fileState : ConfigFileState
  osEnv : String → Option String
  changedFlags : KVs
  dbOk : Bool
  importOk : Bool
  telemetryOk : Bool
  ruleSource : RuleConfigSource

/-- ServeResult is the final state of the serve command: aborted during
startup with an error, or serving requests with a configuration and the
parsed rules. -/
inductive ServeResult
  | failed (e : StartupError)
  | serving (cfg : Config) (rules : List PermissionRule)

/-- runServe follows the serve command of the source step by step:
initialize viper (aborting on error), build the Config, connect to the
database (aborting on error), import seed data when seed.from is non-empty
with a failure only logged, initialize telemetry (aborting on error), and
construct and start the server. The construction of the server consumes the
Permission Rule configuration; that parsing step is modelled from the spec,
which makes malformed rule configuration fatal at startup. -/
def runServe (e : ServeEnv) : List LogEvent × ServeResult :=
  match InitViper e.fileState e.osEnv serveFlagDefaults e.changedFlags with
  | Except.error err =>
      ([LogEvent.configInitFailed], ServeResult.failed (StartupError.configInit err))
  | Except.ok v =>
    let cfg := NewConfigFromViper v
    if e.dbOk then
      let importLogs :=
        if cfg.SeedFrom != "" && !e.importOk then [LogEvent.seedImportFailed]
        else []
      if e.telemetryOk then
        match parseRuleConfig e.ruleSource with
        | Except.error f =>
            (importLogs, ServeResult.failed (StartupError.ruleConfig f))
        | Except.ok rules => (importLogs, ServeResult.serving cfg rules)
      else
        (importLogs ++ [LogEvent.telemetryInitFailed],
          ServeResult.failed StartupError.telemetryInit)
    else
      ([LogEvent.dbConnectFailed], ServeResult.failed StartupError.dbConnect)

/-- C7: whenever the Permission Rule configuration is malformed, the serve
command ends in a startup failure and never reaches the serving state, so
the fault is not surfaced per request. -/
theorem malformed_rule_config_is_fatal_at_startup (e : ServeEnv)
    (f : RuleConfigFault) (h : e.ruleSource = RuleConfigSource.malformed f) :
    ∃ err, (runServe e).2 = ServeResult.failed err := by
  unfold runServe
  cases hv : InitViper e.fileState e.osEnv serveFlagDefaults e.changedFlags with
  | error err => exact ⟨StartupError.configInit err, rfl⟩
  | ok v =>
    cases hdb : e.dbOk with
    | false => exact ⟨StartupError.dbConnect, by simp⟩
    | true =>
      cases htel : e.telemetryOk with
      | false => exact ⟨StartupError.telemetryInit, by simp⟩
      | true =>
        refine ⟨StartupError.ruleConfig f, ?_⟩
        simp [h, parseRuleConfig]

/-- Witness for C7: an invalid-JSON rule configuration aborts startup. -/
theorem malformed_rule_config_is_fatal_at_startup_witness :
    ∃ err, (runServe ⟨ConfigFileState.notFound, fun _ => none, [], true, true,
      true, RuleConfigSource.malformed RuleConfigFault.invalidJson⟩).2 =
      ServeResult.failed err :=
  malformed_rule_config_is_fatal_at_startup
    ⟨ConfigFileState.notFound, fun _ => none, [], true, true, true,
      RuleConfigSource.malformed RuleConfigFault.invalidJson⟩
    RuleConfigFault.invalidJson rfl

/-- C10: when the seed source is configured and the seed import fails while
every other startup step succeeds, the failure is only logged: the server is
still constructed and started, and the serve command does not end in that
error. -/
theorem seed_import_failure_does_not_abort_startup (e : ServeEnv)
    (rules : List PermissionRule) (v : Viper)
    (hv : InitViper e.fileState e.osEnv serveFlagDefaults e.changedFlags =
      Except.ok v)
    (hdb : e.dbOk = true) (htel : e.telemetryOk = true)
    (hrules : e.ruleSource = RuleConfigSource.wellFormed rules)
    (himp : e.importOk = false)
    (hseed : (NewConfigFromViper v).SeedFrom ≠ "") :
    runServe e = ([LogEvent.seedImportFailed],
      ServeResult.serving (NewConfigFromViper v) rules) := by
  unfold runServe
  rw [hv]
  simp only [hdb, htel, hrules, himp, if_true, parseRuleConfig]
  rw [if_pos (by simp [bne_iff_ne, hseed])]

/-- Witness for C10: with seed.from set by a changed flag and a failing
import, the server still serves and the failure is logged. -/
theorem seed_import_failure_does_not_abort_startup_witness :
    runServe ⟨ConfigFileState.notFound, fun _ => none,
      [("seed.from", VVal.vstr "seed.json")], true, false, true,
      RuleConfigSource.wellFormed []⟩ =
      ([LogEvent.seedImportFailed],
        ServeResult.serving (NewConfigFromViper ⟨registryDefaults, [],
          fun _ => none, serveFlagDefaults,
          [("seed.from", VVal.vstr "seed.json")]⟩) []) :=
  seed_import_failure_does_not_abort_startup
    ⟨ConfigFileState.notFound, fun _ => none,
      [("seed.from", VVal.vstr "seed.json")], true, false, true,
      RuleConfigSource.wellFormed []⟩ [] _ rfl rfl rfl rfl rfl
    (by decide)
